import Mathlib

/-!
Verification of the sealed-configuration scheme and webhook relay pipeline of
the remapjson repository (pkg/config/sealer.go and pkg/rest server code).

The Go code is shallowly embedded: bytes are `Nat` values below 256, byte
buffers are `List Nat`, Go strings are Lean `String` (their UTF-8 bytes are
computed by an explicit encoder).  External primitives that the repository
calls but does not define (crypto/sha256, crypto/cipher's AES-GCM,
encoding/base64, encoding/json, text/template, the HTTP transport) are
modelled by executable Lean functions that keep the primitive's interface,
sizes and error behaviour; cryptographic facts that hold only
computationally (collision resistance, AEAD authenticity) enter theorems as
explicit hypotheses, never as axioms.
-/

namespace Remap

/-- UTF-8 encoding of a single character, as byte values (model of Go's
string byte representation; matches the standard UTF-8 ranges). -/
def utf8Bytes (c : Char) : List Nat :=
  let n := c.toNat
  if n < 128 then [n]
  else if n < 2048 then [192 + n / 64, 128 + n % 64]
  else if n < 65536 then [224 + n / 4096, 128 + n / 64 % 64, 128 + n % 64]
  else [240 + n / 262144, 128 + n / 4096 % 64, 128 + n / 64 % 64, 128 + n % 64]

/-- Bytes of a Go string (UTF-8). -/
def strBytes (s : String) : List Nat :=
  s.data.foldr (fun c acc => utf8Bytes c ++ acc) []

theorem strBytes_nil : strBytes (String.mk []) = [] := rfl

theorem strBytes_cons (c : Char) (cs : List Char) :
    strBytes (String.mk (c :: cs)) = utf8Bytes c ++ strBytes (String.mk cs) := rfl

theorem char_toNat_lt (c : Char) : c.toNat < 1114112 := by
  have h := c.valid
  rcases h with h | h
  · exact Nat.lt_trans h (by norm_num)
  · exact h.2

theorem utf8Bytes_lt (c : Char) : ∀ b ∈ utf8Bytes c, b < 256 := by
  intro b hb
  have hc := char_toNat_lt c
  unfold utf8Bytes at hb
  by_cases h1 : c.toNat < 128
  · simp only [h1, if_true] at hb
    simp at hb; omega
  · simp only [h1, if_false] at hb
    by_cases h2 : c.toNat < 2048
    · simp only [h2, if_true] at hb
      simp at hb
      rcases hb with h | h <;> omega
    · simp only [h2, if_false] at hb
      by_cases h3 : c.toNat < 65536
      · simp only [h3, if_true] at hb
        simp at hb
        rcases hb with h | h | h <;> omega
      · simp only [h3, if_false] at hb
        simp at hb
        rcases hb with h | h | h | h <;> omega

theorem strBytes_lt (s : String) : ∀ b ∈ strBytes s, b < 256 := by
  obtain ⟨cs⟩ := s
  induction cs with
  | nil => intro b hb; simp [strBytes] at hb
  | cons c cs ih =>
    intro b hb
    rw [strBytes_cons] at hb
    rcases List.mem_append.mp hb with h | h
    · exact utf8Bytes_lt c b h
    · exact ih b h

/-! ## base64url codec (model of Go's encoding/base64 URLEncoding, with
padding, as used by `base64.URLEncoding.EncodeToString` / `DecodeString`). -/

/-- Character of the URL-safe base64 alphabet for a 6-bit value. -/
def b64Char (v : Nat) : Char :=
  if v < 26 then Char.ofNat (65 + v)
  else if v < 52 then Char.ofNat (97 + (v - 26))
  else if v < 62 then Char.ofNat (48 + (v - 52))
  else if v = 62 then '-'
  else '_'

/-- 6-bit value of a URL-safe base64 alphabet character, `none` when the
character is not in the alphabet. -/
def b64Val (c : Char) : Option Nat :=
  if 65 ≤ c.toNat ∧ c.toNat ≤ 90 then some (c.toNat - 65)
  else if 97 ≤ c.toNat ∧ c.toNat ≤ 122 then some (c.toNat - 97 + 26)
  else if 48 ≤ c.toNat ∧ c.toNat ≤ 57 then some (c.toNat - 48 + 52)
  else if c = '-' then some 62
  else if c = '_' then some 63
  else none

theorem b64Val_b64Char (v : Nat) (h : v < 64) : b64Val (b64Char v) = some v := by
  interval_cases v <;> rfl

/-- base64url encoding of a byte list (3 bytes to 4 characters, `=` padding). -/
def encB64 : List Nat → List Char
  | [] => []
  | [a] => [b64Char (a / 4), b64Char (a % 4 * 16), '=', '=']
  | [a, b] => [b64Char (a / 4), b64Char (a % 4 * 16 + b / 16), b64Char (b % 16 * 4), '=']
  | a :: b :: c :: rest =>
    b64Char (a / 4) :: b64Char (a % 4 * 16 + b / 16) ::
      b64Char (b % 16 * 4 + c / 64) :: b64Char (c % 64) :: encB64 rest

/-- base64url decoding; `none` on characters outside the alphabet, leftover
input that is not a full 4-character group, or interior padding
(model of Go's `base64.URLEncoding.DecodeString` error cases). -/
def decB64 : List Char → Option (List Nat)
  | [] => some []
  | c1 :: c2 :: c3 :: c4 :: rest =>
    match b64Val c1, b64Val c2 with
    | some v1, some v2 =>
      if c3 = '=' then
        if c4 = '=' ∧ rest = [] then some [v1 * 4 + v2 / 16] else none
      else
        match b64Val c3 with
        | some v3 =>
          if c4 = '=' then
            if rest = [] then some [v1 * 4 + v2 / 16, v2 % 16 * 16 + v3 / 4] else none
          else
            match b64Val c4, decB64 rest with
            | some v4, some tail =>
              some ((v1 * 4 + v2 / 16) :: (v2 % 16 * 16 + v3 / 4) :: (v3 % 4 * 64 + v4) :: tail)
            | _, _ => none
        | none => none
    | _, _ => none
  | _ => none

theorem b64Char_ne_pad (v : Nat) (h : v < 64) : b64Char v ≠ '=' := by
  intro he
  have := b64Val_b64Char v h
  rw [he] at this
  simp [b64Val] at this

theorem recombFst (a b : Nat) (hb : b < 256) :
    a / 4 * 4 + (a % 4 * 16 + b / 16) / 16 = a := by
  have h1 : (a % 4 * 16 + b / 16) / 16 = a % 4 := by
    rw [Nat.add_comm, Nat.add_mul_div_right _ _ (by norm_num : (0 : Nat) < 16),
      Nat.div_eq_of_lt (by omega : b / 16 < 16)]
    omega
  rw [h1]
  omega

theorem recombSnd (a b c : Nat) (hb : b < 256) (hc : c < 256) :
    (a % 4 * 16 + b / 16) % 16 * 16 + (b % 16 * 4 + c / 64) / 4 = b := by
  have h1 : (a % 4 * 16 + b / 16) % 16 = b / 16 := by
    rw [Nat.add_comm, Nat.add_mul_mod_self_right, Nat.mod_eq_of_lt (by omega : b / 16 < 16)]
  have h2 : (b % 16 * 4 + c / 64) / 4 = b % 16 := by
    rw [Nat.add_comm, Nat.add_mul_div_right _ _ (by norm_num : (0 : Nat) < 4),
      Nat.div_eq_of_lt (by omega : c / 64 < 4)]
    omega
  rw [h1, h2]
  omega

theorem recombTrd (b c : Nat) (hc : c < 256) :
    (b % 16 * 4 + c / 64) % 4 * 64 + c % 64 = c := by
  have h1 : (b % 16 * 4 + c / 64) % 4 = c / 64 := by
    rw [Nat.add_comm, Nat.add_mul_mod_self_right, Nat.mod_eq_of_lt (by omega : c / 64 < 4)]
  rw [h1]
  omega

theorem recombSndPad (a b : Nat) (hb : b < 256) :
    (a % 4 * 16 + b / 16) % 16 * 16 + b % 16 * 4 / 4 = b := by
  have h1 : (a % 4 * 16 + b / 16) % 16 = b / 16 := by
    rw [Nat.add_comm, Nat.add_mul_mod_self_right, Nat.mod_eq_of_lt (by omega : b / 16 < 16)]
  rw [h1, Nat.mul_div_cancel _ (by norm_num : (0 : Nat) < 4)]
  omega

theorem recombFstPad (a : Nat) : a / 4 * 4 + a % 4 * 16 / 16 = a := by
  rw [Nat.mul_div_cancel _ (by norm_num : (0 : Nat) < 16)]
  omega

theorem decB64_encB64 (l : List Nat) (h : ∀ b ∈ l, b < 256) :
    decB64 (encB64 l) = some l := by
  induction l using encB64.induct with
  | case1 => simp [encB64, decB64]
  | case2 a =>
    have ha : a < 256 := h a (by simp)
    have h1 : a / 4 < 64 := by omega
    have h2 : a % 4 * 16 < 64 := by omega
    simp only [encB64, decB64, b64Val_b64Char _ h1, b64Val_b64Char _ h2,
      if_pos rfl, and_self, if_true, ite_true, reduceIte, recombFstPad a]
  | case3 a b =>
    have ha : a < 256 := h a (by simp)
    have hb : b < 256 := h b (by simp)
    have h1 : a / 4 < 64 := by omega
    have h2 : a % 4 * 16 + b / 16 < 64 := by omega
    have h3 : b % 16 * 4 < 64 := by omega
    simp only [encB64, decB64, b64Val_b64Char _ h1, b64Val_b64Char _ h2,
      b64Val_b64Char _ h3, b64Char_ne_pad _ h3, if_false, ite_false, if_pos rfl,
      if_true, ite_true, reduceIte, recombFst a b hb, recombSndPad a b hb]
  | case4 a b c rest ih =>
    have ha : a < 256 := h a (by simp)
    have hb : b < 256 := h b (by simp)
    have hc : c < 256 := h c (by simp)
    have h1 : a / 4 < 64 := by omega
    have h2 : a % 4 * 16 + b / 16 < 64 := by omega
    have h3 : b % 16 * 4 + c / 64 < 64 := by omega
    have h4 : c % 64 < 64 := by omega
    have hrest : ∀ x ∈ rest, x < 256 := fun x hx => h x (by simp [hx])
    have henc : decB64 (encB64 rest) = some rest := ih hrest
    simp only [encB64, decB64, b64Val_b64Char _ h1, b64Val_b64Char _ h2,
      b64Val_b64Char _ h3, b64Val_b64Char _ h4, henc, b64Char_ne_pad _ h3,
      b64Char_ne_pad _ h4, if_false, ite_false, reduceIte,
      recombFst a b hb, recombSnd a b c hb hc, recombTrd b c hc]

/-- Injectivity of the base64url encoding on byte lists (a consequence of the
decode round-trip). -/
theorem encB64_injOn (x y : List Nat) (hx : ∀ b ∈ x, b < 256) (hy : ∀ b ∈ y, b < 256)
    (he : encB64 x = encB64 y) : x = y := by
  have h1 := decB64_encB64 x hx
  have h2 := decB64_encB64 y hy
  rw [he, h2] at h1
  exact (Option.some.inj h1).symm

/-! ## Hash models.

crypto/sha256 is external library code; it is modelled by a deterministic,
executable 32-byte digest function.  Where a claim depends on collision
resistance or injectivity (properties that hold for SHA-256 only
computationally), the theorem takes them as explicit hypotheses. -/

/-- Mixing fold used by the modelled digest. -/
def mixFold (seed : Nat) (l : List Nat) : Nat :=
  l.foldl (fun a b => (a * 131 + b + 1) % 65536) seed

/-- Model of crypto/sha256: a deterministic 32-byte digest of a byte list. -/
def sha256Model (data : List Nat) : List Nat :=
  (List.range 32).map (fun i => mixFold (i * 37 + 11) data % 256)

theorem sha256Model_length (data : List Nat) : (sha256Model data).length = 32 := by
  simp [sha256Model]

theorem sha256Model_lt (data : List Nat) : ∀ b ∈ sha256Model data, b < 256 := by
  intro b hb
  simp only [sha256Model, List.mem_map] at hb
  obtain ⟨i, _, hi⟩ := hb
  omega

/-- Lower-case hexadecimal digit. -/
def hexDigit (v : Nat) : Char :=
  if v < 10 then Char.ofNat (48 + v) else Char.ofNat (97 + (v - 10))

/-- Lower-case hexadecimal rendering of a byte list
(model of Go's `fmt.Sprintf("%x", ...)` on a byte slice). -/
def hexStr : List Nat → List Char
  | [] => []
  | b :: rest => hexDigit (b / 16 % 16) :: hexDigit (b % 16) :: hexStr rest

theorem hexDigit_inj (v w : Nat) (hv : v < 16) (hw : w < 16)
    (he : hexDigit v = hexDigit w) : v = w := by
  interval_cases v <;> interval_cases w <;> first | rfl | (exfalso; exact absurd he (by decide))

theorem hexStr_injOn (x y : List Nat) (hx : ∀ b ∈ x, b < 256) (hy : ∀ b ∈ y, b < 256)
    (he : hexStr x = hexStr y) : x = y := by
  induction x generalizing y with
  | nil => cases y with
    | nil => rfl
    | cons b rest => simp [hexStr] at he
  | cons a rest ih =>
    cases y with
    | nil => simp [hexStr] at he
    | cons b rest2 =>
      simp only [hexStr, List.cons.injEq] at he
      obtain ⟨e1, e2, e3⟩ := he
      have ha : a < 256 := hx a (by simp)
      have hb : b < 256 := hy b (by simp)
      have d1 : a / 16 % 16 = b / 16 % 16 := hexDigit_inj _ _ (by omega) (by omega) e1
      have d2 : a % 16 = b % 16 := hexDigit_inj _ _ (by omega) (by omega) e2
      have : a = b := by omega
      rw [this, ih rest2 (fun z hz => hx z (List.mem_cons_of_mem _ hz))
        (fun z hz => hy z (List.mem_cons_of_mem _ hz)) e3]

/-! ## AEAD model (Go's crypto/cipher AES-256-GCM).

AES-GCM is external library code.  It is modelled by an executable
authenticated-encryption scheme with GCM's interface and sizes: a 12-byte
nonce, a keystream cipher applied byte by byte, and a 16-byte tag appended
to the ciphertext; `Open` checks the length, recomputes the tag and rejects
on mismatch, exactly mirroring the control flow Go exposes to the calling
code.  AEAD authenticity (that a wrong key or altered ciphertext makes the
tag check fail) holds for the real primitive only computationally, so
theorems that need it take the tag-check failure as a hypothesis. -/

/-- Nonce size of GCM with a standard nonce (`gcm.NonceSize()` in Go). -/
def gcmNonceSize : Nat := 12

/-- Tag overhead of GCM (`gcm.Overhead()` in Go). -/
def gcmTagSize : Nat := 16

/-- Keystream byte at position `i` for a key and nonce. -/
def ksByte (key nonce : List Nat) (i : Nat) : Nat :=
  (mixFold 7 key + mixFold 11 nonce * 31 + i * 13) % 256

/-- XOR a byte list with the keystream starting at position `i`
(its own inverse, the model's counterpart of CTR-mode en/decryption). -/
def xorKS (key nonce : List Nat) : Nat → List Nat → List Nat
  | _, [] => []
  | i, b :: rest => (b ^^^ ksByte key nonce i) :: xorKS key nonce (i + 1) rest

/-- Authentication tag of the model AEAD: 16 bytes mixed from key, nonce and
ciphertext. -/
def gcmTag (key nonce ct : List Nat) : List Nat :=
  (List.range gcmTagSize).map (fun i => mixFold (mixFold (mixFold (i * 29 + 1) key) nonce) ct % 256)

/-- Model of `gcm.Seal(nil, nonce, plaintext, nil)`: ciphertext followed by
the 16-byte tag. -/
def gcmSealB (key nonce pt : List Nat) : List Nat :=
  xorKS key nonce 0 pt ++ gcmTag key nonce (xorKS key nonce 0 pt)

/-- Model of `gcm.Open(nil, nonce, data, nil)`: rejects data shorter than the
tag, recomputes and compares the tag, and decrypts on success. -/
def gcmOpenB (key nonce data : List Nat) : Option (List Nat) :=
  if data.length < gcmTagSize then none
  else
    let ct := data.take (data.length - gcmTagSize)
    let tag := data.drop (data.length - gcmTagSize)
    if tag = gcmTag key nonce ct then some (xorKS key nonce 0 ct) else none

theorem xorKS_length (key nonce : List Nat) (i : Nat) (l : List Nat) :
    (xorKS key nonce i l).length = l.length := by
  induction l generalizing i with
  | nil => rfl
  | cons b rest ih => simp [xorKS, ih]

theorem ksByte_lt (key nonce : List Nat) (i : Nat) : ksByte key nonce i < 256 := by
  simp [ksByte]
  omega

theorem xorKS_lt (key nonce : List Nat) (i : Nat) (l : List Nat) (h : ∀ b ∈ l, b < 256) :
    ∀ b ∈ xorKS key nonce i l, b < 256 := by
  induction l generalizing i with
  | nil => intro b hb; simp [xorKS] at hb
  | cons x rest ih =>
    intro b hb
    simp only [xorKS, List.mem_cons] at hb
    rcases hb with hb | hb
    · subst hb
      have hx : x < 256 := h x (by simp)
      have hk : ksByte key nonce i < 256 := ksByte_lt key nonce i
      calc x ^^^ ksByte key nonce i < 2 ^ 8 :=
            Nat.xor_lt_two_pow (by norm_num at hx ⊢; omega) (by norm_num at hk ⊢; omega)
        _ = 256 := by norm_num
    · exact ih (i + 1) (fun z hz => h z (List.mem_cons_of_mem _ hz)) b hb

theorem xorKS_involutive (key nonce : List Nat) (i : Nat) (l : List Nat) :
    xorKS key nonce i (xorKS key nonce i l) = l := by
  induction l generalizing i with
  | nil => rfl
  | cons b rest ih =>
    simp only [xorKS, List.cons.injEq]
    exact ⟨Nat.xor_cancel_right _ _, ih (i + 1)⟩

theorem gcmTag_length (key nonce ct : List Nat) : (gcmTag key nonce ct).length = 16 := by
  simp [gcmTag, gcmTagSize]

theorem gcmTag_lt (key nonce ct : List Nat) : ∀ b ∈ gcmTag key nonce ct, b < 256 := by
  intro b hb
  simp only [gcmTag, List.mem_map] at hb
  obtain ⟨i, _, hi⟩ := hb
  omega

/-- Decryption inverts encryption in the model AEAD: opening a sealed message
with the same key and nonce recovers the plaintext. -/
theorem gcmOpenB_gcmSealB (key nonce pt : List Nat) :
    gcmOpenB key nonce (gcmSealB key nonce pt) = some pt := by
  unfold gcmOpenB gcmSealB
  have hlen : (xorKS key nonce 0 pt ++ gcmTag key nonce (xorKS key nonce 0 pt)).length
      = pt.length + 16 := by
    simp [xorKS_length, gcmTag_length]
  rw [if_neg (by rw [hlen]; simp [gcmTagSize])]
  have htake : (xorKS key nonce 0 pt ++ gcmTag key nonce (xorKS key nonce 0 pt)).take
      ((xorKS key nonce 0 pt ++ gcmTag key nonce (xorKS key nonce 0 pt)).length - gcmTagSize)
      = xorKS key nonce 0 pt := by
    rw [hlen]
    have : pt.length + 16 - gcmTagSize = (xorKS key nonce 0 pt).length := by
      simp [xorKS_length, gcmTagSize]
    rw [this, List.take_left]
  have hdrop : (xorKS key nonce 0 pt ++ gcmTag key nonce (xorKS key nonce 0 pt)).drop
      ((xorKS key nonce 0 pt ++ gcmTag key nonce (xorKS key nonce 0 pt)).length - gcmTagSize)
      = gcmTag key nonce (xorKS key nonce 0 pt) := by
    rw [hlen]
    have : pt.length + 16 - gcmTagSize = (xorKS key nonce 0 pt).length := by
      simp [xorKS_length, gcmTagSize]
    rw [this, List.drop_left]
  simp only [htake, hdrop, if_pos rfl, if_true, ite_true, reduceIte, xorKS_involutive]

/-! ## JSON string encoding (Go's encoding/json).

encoding/json is external library code.  `escChar` mirrors the escaping Go's
`json.Marshal` applies inside string literals (with its default HTML
escaping of `<`, `>`, `&`, short escapes for quote, backslash, newline,
carriage return and tab, `\u00XX` for other control characters and
` `/` `, all other characters emitted as UTF-8).  The byte-level
reader `parseStrAux` mirrors `json.Unmarshal`'s string scanner on such
data: escape sequences, plain ASCII, and multi-byte UTF-8 sequences. -/

/-- Byte of the lower-case hexadecimal digit for a value below 16. -/
def hexByte (v : Nat) : Nat :=
  if v < 10 then 48 + v else 97 + (v - 10)

/-- Value of a hexadecimal digit byte (either case), `none` otherwise. -/
def hexVal (b : Nat) : Option Nat :=
  if 48 ≤ b ∧ b ≤ 57 then some (b - 48)
  else if 97 ≤ b ∧ b ≤ 102 then some (b - 97 + 10)
  else if 65 ≤ b ∧ b ≤ 70 then some (b - 65 + 10)
  else none

theorem hexVal_hexByte (v : Nat) (h : v < 16) : hexVal (hexByte v) = some v := by
  interval_cases v <;> rfl

/-- Bytes emitted by Go's `json.Marshal` for one character inside a string
literal. -/
def escChar (c : Char) : List Nat :=
  let n := c.toNat
  if n = 34 then [92, 34]
  else if n = 92 then [92, 92]
  else if n = 10 then [92, 110]
  else if n = 13 then [92, 114]
  else if n = 9 then [92, 116]
  else if n < 32 then [92, 117, 48, 48, hexByte (n / 16), hexByte (n % 16)]
  else if n = 60 then [92, 117, 48, 48, 51, 99]
  else if n = 62 then [92, 117, 48, 48, 51, 101]
  else if n = 38 then [92, 117, 48, 48, 50, 54]
  else if n = 8232 then [92, 117, 50, 48, 50, 56]
  else if n = 8233 then [92, 117, 50, 48, 50, 57]
  else utf8Bytes c

/-- Bytes emitted for a whole character list inside a JSON string literal. -/
def escBytes : List Char → List Nat
  | [] => []
  | c :: rest => escChar c ++ escBytes rest

/-- Cons a character onto the parsed content of a scanner result. -/
def consFst (c : Char) : Option (List Char × List Nat) → Option (List Char × List Nat)
  | none => none
  | some (cs, r) => some (c :: cs, r)

/-- One step of the byte-level scanner for a JSON string literal: reads the
closing quote (`some (none, rest)`), one character — plain ASCII, an escape
sequence, or a multi-byte UTF-8 sequence — (`some (some c, rest)`), or
rejects malformed input (`none`).  Non-recursive; the scanning loop is
`parseStrAux`. -/
def parseTok : List Nat → Option (Option Char × List Nat)
  | [] => none
  | b :: rest =>
    if b = 34 then some (none, rest)
    else if b = 92 then
      match rest with
      | [] => none
      | e :: rest1 =>
        if e = 34 then some (some '"', rest1)
        else if e = 92 then some (some '\\', rest1)
        else if e = 47 then some (some '/', rest1)
        else if e = 98 then some (some (Char.ofNat 8), rest1)
        else if e = 102 then some (some (Char.ofNat 12), rest1)
        else if e = 110 then some (some (Char.ofNat 10), rest1)
        else if e = 114 then some (some (Char.ofNat 13), rest1)
        else if e = 116 then some (some (Char.ofNat 9), rest1)
        else if e = 117 then
          match rest1 with
          | h1 :: h2 :: h3 :: h4 :: rest2 =>
            match hexVal h1, hexVal h2, hexVal h3, hexVal h4 with
            | some v1, some v2, some v3, some v4 =>
              some (some (Char.ofNat (v1 * 4096 + v2 * 256 + v3 * 16 + v4)), rest2)
            | _, _, _, _ => none
          | _ => none
        else none
    else if b < 32 then none
    else if b < 128 then some (some (Char.ofNat b), rest)
    else if b < 194 then none
    else if b < 224 then
      match rest with
      | b2 :: rest2 =>
        if 128 ≤ b2 ∧ b2 < 192 then
          some (some (Char.ofNat ((b - 192) * 64 + (b2 - 128))), rest2)
        else none
      | _ => none
    else if b < 240 then
      match rest with
      | b2 :: b3 :: rest2 =>
        if (128 ≤ b2 ∧ b2 < 192) ∧ (128 ≤ b3 ∧ b3 < 192) then
          some (some (Char.ofNat ((b - 224) * 4096 + (b2 - 128) * 64 + (b3 - 128))), rest2)
        else none
      | _ => none
    else if b < 245 then
      match rest with
      | b2 :: b3 :: b4 :: rest2 =>
        if (128 ≤ b2 ∧ b2 < 192) ∧ (128 ≤ b3 ∧ b3 < 192) ∧ (128 ≤ b4 ∧ b4 < 192) then
          some (some (Char.ofNat ((b - 240) * 262144 + (b2 - 128) * 4096 + (b3 - 128) * 64
            + (b4 - 128))), rest2)
        else none
      | _ => none
    else none

/-- Scanning loop for the body of a JSON string literal, with explicit fuel
(one unit per scanner step; `parseStrAux` supplies enough).  Consumes bytes
up to an unescaped closing quote and returns the decoded characters and the
remaining input; `none` on malformed input (model of `json.Unmarshal`'s
string scanning). -/
def parseStrGo : Nat → List Nat → Option (List Char × List Nat)
  | 0, _ => none
  | fuel + 1, l =>
    match parseTok l with
    | none => none
    | some (none, rest) => some ([], rest)
    | some (some c, rest) => consFst c (parseStrGo fuel rest)

/-- Byte-level scanner for the body of a JSON string literal (the input
length bounds the number of scanner steps, since every step consumes at
least one byte). -/
def parseStrAux (l : List Nat) : Option (List Char × List Nat) :=
  parseStrGo l.length l

theorem parseStrGo_step_quote (fuel : Nat) (l r : List Nat)
    (h : parseTok l = some (none, r)) :
    parseStrGo (fuel + 1) l = some ([], r) := by
  rw [parseStrGo, h]

theorem parseStrGo_step_char (fuel : Nat) (l r : List Nat) (c : Char)
    (h : parseTok l = some (some c, r)) :
    parseStrGo (fuel + 1) l = consFst c (parseStrGo fuel r) := by
  rw [parseStrGo, h]

theorem parseTok_u (h1 h2 h3 h4 : Nat) (v1 v2 v3 v4 : Nat) (rest : List Nat)
    (e1 : hexVal h1 = some v1) (e2 : hexVal h2 = some v2)
    (e3 : hexVal h3 = some v3) (e4 : hexVal h4 = some v4) :
    parseTok (92 :: 117 :: h1 :: h2 :: h3 :: h4 :: rest)
      = some (some (Char.ofNat (v1 * 4096 + v2 * 256 + v3 * 16 + v4)), rest) := by
  rw [parseTok.eq_def]
  dsimp only
  norm_num
  rw [e1, e2, e3, e4]

theorem parseTok_ascii (b : Nat) (rest : List Nat) (hlo : 32 ≤ b) (hhi : b < 128)
    (hq : b ≠ 34) (hbs : b ≠ 92) :
    parseTok (b :: rest) = some (some (Char.ofNat b), rest) := by
  rw [parseTok.eq_def]
  dsimp only
  rw [if_neg hq, if_neg hbs, if_neg (show ¬b < 32 by omega), if_pos hhi]

theorem parseTok_utf2 (b b2 : Nat) (rest : List Nat) (hb : 194 ≤ b) (hb' : b < 224)
    (h2 : 128 ≤ b2 ∧ b2 < 192) :
    parseTok (b :: b2 :: rest)
      = some (some (Char.ofNat ((b - 192) * 64 + (b2 - 128))), rest) := by
  rw [parseTok.eq_def]
  dsimp only
  rw [if_neg (show ¬b = 34 by omega), if_neg (show ¬b = 92 by omega),
    if_neg (show ¬b < 32 by omega), if_neg (show ¬b < 128 by omega),
    if_neg (show ¬b < 194 by omega), if_pos hb']
  simp only [if_pos h2]

theorem parseTok_utf3 (b b2 b3 : Nat) (rest : List Nat) (hb : 224 ≤ b) (hb' : b < 240)
    (h2 : 128 ≤ b2 ∧ b2 < 192) (h3 : 128 ≤ b3 ∧ b3 < 192) :
    parseTok (b :: b2 :: b3 :: rest)
      = some (some (Char.ofNat ((b - 224) * 4096 + (b2 - 128) * 64 + (b3 - 128))), rest) := by
  rw [parseTok.eq_def]
  dsimp only
  rw [if_neg (show ¬b = 34 by omega), if_neg (show ¬b = 92 by omega),
    if_neg (show ¬b < 32 by omega), if_neg (show ¬b < 128 by omega),
    if_neg (show ¬b < 194 by omega), if_neg (show ¬b < 224 by omega), if_pos hb']
  simp only [if_pos (And.intro h2 h3)]

theorem parseTok_utf4 (b b2 b3 b4 : Nat) (rest : List Nat) (hb : 240 ≤ b) (hb' : b < 245)
    (h2 : 128 ≤ b2 ∧ b2 < 192) (h3 : 128 ≤ b3 ∧ b3 < 192) (h4 : 128 ≤ b4 ∧ b4 < 192) :
    parseTok (b :: b2 :: b3 :: b4 :: rest)
      = some (some (Char.ofNat ((b - 240) * 262144 + (b2 - 128) * 4096 + (b3 - 128) * 64
          + (b4 - 128))), rest) := by
  rw [parseTok.eq_def]
  dsimp only
  rw [if_neg (show ¬b = 34 by omega), if_neg (show ¬b = 92 by omega),
    if_neg (show ¬b < 32 by omega), if_neg (show ¬b < 128 by omega),
    if_neg (show ¬b < 194 by omega), if_neg (show ¬b < 224 by omega),
    if_neg (show ¬b < 240 by omega), if_pos hb']
  simp only [if_pos (And.intro h2 (And.intro h3 h4))]

set_option maxHeartbeats 1600000 in
/-- One-character compositionality: the scanner step consumes exactly the
bytes the escaper emitted for a character and returns that character. -/
theorem parseTok_escChar (c : Char) (rest : List Nat) :
    parseTok (escChar c ++ rest) = some (some c, rest) := by
  have hv := char_toNat_lt c
  simp only [escChar]
  split_ifs with h1 h2 h3 h4 h5 h6 h7 h8 h9 h10 h11
  · obtain rfl : c = '"' := by rw [← Char.ofNat_toNat c, h1]
    rfl
  · obtain rfl : c = '\\' := by rw [← Char.ofNat_toNat c, h2]
    rfl
  · obtain rfl : c = Char.ofNat 10 := by rw [← Char.ofNat_toNat c, h3]
    rfl
  · obtain rfl : c = Char.ofNat 13 := by rw [← Char.ofNat_toNat c, h4]
    rfl
  · obtain rfl : c = Char.ofNat 9 := by rw [← Char.ofNat_toNat c, h5]
    rfl
  · rw [List.cons_append, List.cons_append, List.cons_append, List.cons_append,
      List.cons_append, List.cons_append, List.nil_append]
    rw [parseTok_u 48 48 (hexByte (c.toNat / 16)) (hexByte (c.toNat % 16))
      0 0 (c.toNat / 16) (c.toNat % 16) rest rfl rfl
      (hexVal_hexByte _ (by omega)) (hexVal_hexByte _ (by omega))]
    have he : 0 * 4096 + 0 * 256 + c.toNat / 16 * 16 + c.toNat % 16 = c.toNat := by omega
    rw [he, Char.ofNat_toNat]
  · obtain rfl : c = Char.ofNat 60 := by rw [← Char.ofNat_toNat c, h7]
    rw [List.cons_append, List.cons_append, List.cons_append, List.cons_append,
      List.cons_append, List.cons_append, List.nil_append,
      parseTok_u 48 48 51 99 0 0 3 12 rest rfl rfl rfl rfl]
  · obtain rfl : c = Char.ofNat 62 := by rw [← Char.ofNat_toNat c, h8]
    rw [List.cons_append, List.cons_append, List.cons_append, List.cons_append,
      List.cons_append, List.cons_append, List.nil_append,
      parseTok_u 48 48 51 101 0 0 3 14 rest rfl rfl rfl rfl]
  · obtain rfl : c = Char.ofNat 38 := by rw [← Char.ofNat_toNat c, h9]
    rw [List.cons_append, List.cons_append, List.cons_append, List.cons_append,
      List.cons_append, List.cons_append, List.nil_append,
      parseTok_u 48 48 50 54 0 0 2 6 rest rfl rfl rfl rfl]
  · obtain rfl : c = Char.ofNat 8232 := by rw [← Char.ofNat_toNat c, h10]
    rw [List.cons_append, List.cons_append, List.cons_append, List.cons_append,
      List.cons_append, List.cons_append, List.nil_append,
      parseTok_u 50 48 50 56 2 0 2 8 rest rfl rfl rfl rfl]
  · obtain rfl : c = Char.ofNat 8233 := by rw [← Char.ofNat_toNat c, h11]
    rw [List.cons_append, List.cons_append, List.cons_append, List.cons_append,
      List.cons_append, List.cons_append, List.nil_append,
      parseTok_u 50 48 50 57 2 0 2 9 rest rfl rfl rfl rfl]
  · simp only [utf8Bytes]
    by_cases k1 : c.toNat < 128
    · simp only [k1, if_true, reduceIte]
      rw [List.cons_append, List.nil_append,
        parseTok_ascii _ _ (by omega) k1 h1 h2, Char.ofNat_toNat]
    · simp only [k1, if_false, reduceIte]
      by_cases k2 : c.toNat < 2048
      · simp only [k2, if_true, reduceIte]
        rw [List.cons_append, List.cons_append, List.nil_append,
          parseTok_utf2 _ _ _ (by omega) (by omega) (by constructor <;> omega)]
        have he : (192 + c.toNat / 64 - 192) * 64 + (128 + c.toNat % 64 - 128) = c.toNat := by
          omega
        rw [he, Char.ofNat_toNat]
      · simp only [k2, if_false, reduceIte]
        by_cases k3 : c.toNat < 65536
        · simp only [k3, if_true, reduceIte]
          rw [List.cons_append, List.cons_append, List.cons_append, List.nil_append,
            parseTok_utf3 _ _ _ _ (by omega) (by omega)
              (by constructor <;> omega) (by constructor <;> omega)]
          have he : (224 + c.toNat / 4096 - 224) * 4096 + (128 + c.toNat / 64 % 64 - 128) * 64
              + (128 + c.toNat % 64 - 128) = c.toNat := by
            omega
          rw [he, Char.ofNat_toNat]
        · simp only [k3, if_false, reduceIte]
          rw [List.cons_append, List.cons_append, List.cons_append, List.cons_append,
            List.nil_append,
            parseTok_utf4 _ _ _ _ _ (by omega) (by omega)
              (by constructor <;> omega) (by constructor <;> omega)
              (by constructor <;> omega)]
          have he : (240 + c.toNat / 262144 - 240) * 262144 + (128 + c.toNat / 4096 % 64 - 128)
              * 4096 + (128 + c.toNat / 64 % 64 - 128) * 64 + (128 + c.toNat % 64 - 128)
              = c.toNat := by
            omega
          rw [he, Char.ofNat_toNat]

theorem parseTok_quote (rest : List Nat) : parseTok (34 :: rest) = some (none, rest) := rfl

set_option maxHeartbeats 1600000 in
theorem escChar_length_pos (c : Char) : 1 ≤ (escChar c).length := by
  have hv := char_toNat_lt c
  simp only [escChar]
  split_ifs <;> simp [utf8Bytes] <;> split_ifs <;> simp

set_option maxHeartbeats 1600000 in
theorem escChar_lt (c : Char) : ∀ b ∈ escChar c, b < 256 := by
  intro b hb
  have hv := char_toNat_lt c
  simp only [escChar] at hb
  split_ifs at hb <;>
    first
      | (simp only [List.mem_cons, List.mem_singleton, List.not_mem_nil, or_false] at hb
         rcases hb with rfl | rfl | rfl | rfl | rfl | rfl <;> norm_num)
      | (simp at hb
         rcases hb with rfl | rfl | rfl | rfl | rfl | rfl <;> simp [hexByte] <;> split_ifs <;> omega)
      | exact utf8Bytes_lt c b hb
  all_goals (simp only [hexByte]; split_ifs <;> omega)

theorem escBytes_lt (cs : List Char) : ∀ b ∈ escBytes cs, b < 256 := by
  induction cs with
  | nil => intro b hb; simp [escBytes] at hb
  | cons c rest ih =>
    intro b hb
    simp only [escBytes] at hb
    rcases List.mem_append.mp hb with h | h
    · exact escChar_lt c b h
    · exact ih b h

/-- Scanner round-trip with fuel: the escaped bytes of a character list,
followed by a closing quote, scan back to exactly that character list. -/
theorem parseStrGo_escBytes (cs : List Char) (tail : List Nat) (fuel : Nat)
    (hf : (escBytes cs).length < fuel) :
    parseStrGo fuel (escBytes cs ++ 34 :: tail) = some (cs, tail) := by
  induction cs generalizing fuel with
  | nil =>
    match fuel, hf with
    | fuel + 1, _ =>
      simp only [escBytes, List.nil_append]
      rw [parseStrGo_step_quote fuel _ tail (parseTok_quote tail)]
  | cons c rest ih =>
    match fuel, hf with
    | fuel + 1, hf =>
      simp only [escBytes, List.append_assoc]
      rw [parseStrGo_step_char fuel _ _ c (parseTok_escChar c _)]
      rw [ih fuel (by
        have := escChar_length_pos c
        simp only [escBytes, List.length_append] at hf
        omega)]
      rfl

/-- Scanner round-trip: escaped bytes followed by a closing quote scan back
to the original character list. -/
theorem parseStrAux_escBytes (cs : List Char) (tail : List Nat) :
    parseStrAux (escBytes cs ++ 34 :: tail) = some (cs, tail) := by
  unfold parseStrAux
  apply parseStrGo_escBytes
  simp

/-- Consume an expected byte sequence from the front of the input, returning
the remainder; `none` when the input does not start with it. -/
def expectBytes : List Nat → List Nat → Option (List Nat)
  | [], l => some l
  | b :: p, l =>
    match l with
    | [] => none
    | x :: l' => if x = b then expectBytes p l' else none

theorem expectBytes_append (p l : List Nat) : expectBytes p (p ++ l) = some l := by
  induction p with
  | nil => rfl
  | cons b rest ih => simp [expectBytes, ih]

/-- Model of `json.Marshal(sealedConfig{URL: urlStr, Tmpl: tmplStr})` in
sealer.go: Go emits exactly the object with the two string fields in
declaration order, each string escaped by `escChar`.  Marshalling a struct
of two strings cannot fail in Go, so the function is total.  (123/125 are
the object braces, 34 the quote, and the other literals spell
url/tmpl/colon/comma in ASCII.) -/
def jsonMarshalConfig (urlStr tmplStr : String) : List Nat :=
  [123, 34, 117, 114, 108, 34, 58, 34] ++ escBytes urlStr.data
    ++ [34, 44, 34, 116, 109, 112, 108, 34, 58, 34] ++ escBytes tmplStr.data
    ++ [34, 125]

/-- Model of `json.Unmarshal(plaintext, &cfg)` for `sealedConfig` in
sealer.go, restricted to the shape `json.Marshal` emits (Go's unmarshaller
also accepts reordered fields and extra whitespace, which `Marshal` never
produces; on marshal images the two agree). -/
def unmarshalConfig (pt : List Nat) : Option (String × String) :=
  match expectBytes [123, 34, 117, 114, 108, 34, 58, 34] pt with
  | none => none
  | some r1 =>
    match parseStrAux r1 with
    | none => none
    | some (u, r2) =>
      match expectBytes [44, 34, 116, 109, 112, 108, 34, 58, 34] r2 with
      | none => none
      | some r3 =>
        match parseStrAux r3 with
        | none => none
        | some (t, r4) =>
          if r4 = [125] then some (String.mk u, String.mk t) else none

theorem jsonMarshalConfig_lt (urlStr tmplStr : String) :
    ∀ b ∈ jsonMarshalConfig urlStr tmplStr, b < 256 := by
  intro b hb
  simp only [jsonMarshalConfig, List.append_assoc, List.mem_append, List.mem_cons,
    List.not_mem_nil, or_false] at hb
  rcases hb with h | h | h | h | h
  · omega
  · exact escBytes_lt _ b h
  · omega
  · exact escBytes_lt _ b h
  · omega

/-- Deserialisation inverts serialisation for the sealed configuration. -/
theorem unmarshalConfig_marshal (urlStr tmplStr : String) :
    unmarshalConfig (jsonMarshalConfig urlStr tmplStr) = some (urlStr, tmplStr) := by
  unfold unmarshalConfig jsonMarshalConfig
  rw [show [123, 34, 117, 114, 108, 34, 58, 34] ++ escBytes urlStr.data
      ++ [34, 44, 34, 116, 109, 112, 108, 34, 58, 34] ++ escBytes tmplStr.data
      ++ [34, 125]
      = [123, 34, 117, 114, 108, 34, 58, 34] ++ (escBytes urlStr.data
        ++ (34 :: ([44, 34, 116, 109, 112, 108, 34, 58, 34]
          ++ (escBytes tmplStr.data ++ (34 :: [125]))))) by simp]
  rw [expectBytes_append]
  dsimp only
  rw [parseStrAux_escBytes]
  dsimp only
  rw [expectBytes_append]
  dsimp only
  rw [parseStrAux_escBytes]
  rfl

/-! ## The Sealer (pkg/config/sealer.go).

`Sealer.Seal` and `Sealer.Unseal` are translated from sealer.go.  The
fresh random nonce that Go draws with `rand.Read` is passed explicitly
(`sealerSealWith`), and `sealerSeal` keeps Go's error branches: cipher
creation (`aes.NewCipher`, failing exactly when the key length is not
16/24/32 bytes), GCM creation (which cannot fail for an AES block cipher
and is therefore not an error branch of the model), marshalling (total for
this struct), and the randomness source. -/

/-- Key derivation in Seal/Unseal: `sha256.Sum256([]byte(s.Secret))`. -/
def deriveKey (secret : String) : List Nat := sha256Model (strBytes secret)

theorem deriveKey_length (secret : String) : (deriveKey secret).length = 32 :=
  sha256Model_length _

/-- Error cases of `Sealer.Seal` in sealer.go. -/
inductive SealFail where
  | createCipher : SealFail
  | marshal : SealFail
  | rand : SealFail
deriving DecidableEq

/-- Error cases of `Sealer.Unseal` in sealer.go, one per `fmt.Errorf`. -/
inductive SealError where
  | decodeToken : SealError
  | createCipher : SealError
  | tooShort : SealError
  | decryptToken : SealError
  | unmarshalConfig : SealError
deriving DecidableEq

/-- Rendered error message of each `Unseal` failure, as produced by the
`fmt.Errorf` calls in sealer.go (the wrapped library error texts are
modelled by representative strings; what matters for the claims is that the
four failure stages render differently). -/
def SealError.msg : SealError → String
  | .decodeToken => "decode token: illegal base64 data"
  | .createCipher => "create cipher: crypto/aes: invalid key size"
  | .tooShort => "token too short"
  | .decryptToken => "decrypt token: cipher: message authentication failed"
  | .unmarshalConfig => "unmarshal config: invalid character"

/-- The success path of `Sealer.Seal` with the drawn nonce made explicit:
`base64url(gcm.Seal(nonce, nonce, plaintext, nil))`, i.e. the encoding of
nonce ‖ ciphertext ‖ tag. -/
def sealerSealWith (secret : String) (nonce : List Nat) (urlStr tmplStr : String) : String :=
  String.mk (encB64 (nonce ++ gcmSealB (deriveKey secret) nonce
    (jsonMarshalConfig urlStr tmplStr)))

/-- `Sealer.Seal` from sealer.go with all error branches; the randomness
source is a parameter (`none` models a failing `rand.Read`). -/
def sealerSeal (secret : String) (randBytes : Option (List Nat)) (urlStr tmplStr : String) :
    Except SealFail String :=
  let key := deriveKey secret
  if key.length = 16 ∨ key.length = 24 ∨ key.length = 32 then
    match randBytes with
    | none => .error .rand
    | some nonce => .ok (sealerSealWith secret nonce urlStr tmplStr)
  else .error .createCipher

/-- `Sealer.Unseal` from sealer.go: base64url-decode, derive the key, create
the cipher, check the length against the nonce size, authenticated-decrypt,
and deserialise. -/
def sealerUnseal (secret : String) (token : String) : Except SealError (String × String) :=
  match decB64 token.data with
  | none => .error .decodeToken
  | some data =>
    let key := deriveKey secret
    if key.length = 16 ∨ key.length = 24 ∨ key.length = 32 then
      if data.length < gcmNonceSize then .error .tooShort
      else
        match gcmOpenB key (data.take gcmNonceSize) (data.drop gcmNonceSize) with
        | none => .error .decryptToken
        | some pt =>
          match unmarshalConfig pt with
          | none => .error .unmarshalConfig
          | some (u, t) => .ok (u, t)
    else .error .createCipher

theorem gcmSealB_lt (key nonce pt : List Nat) (h : ∀ b ∈ pt, b < 256) :
    ∀ b ∈ gcmSealB key nonce pt, b < 256 := by
  intro b hb
  simp only [gcmSealB, List.mem_append] at hb
  rcases hb with h' | h'
  · exact xorKS_lt key nonce 0 pt h b h'
  · exact gcmTag_lt key nonce _ b h'

/-- Round-trip of the sealing pipeline: unsealing a freshly sealed token
under the same secret recovers exactly the original URL and template. -/
theorem sealerUnseal_sealerSealWith (secret urlStr tmplStr : String) (nonce : List Nat)
    (hlen : nonce.length = gcmNonceSize) (hb : ∀ b ∈ nonce, b < 256) :
    sealerUnseal secret (sealerSealWith secret nonce urlStr tmplStr) = .ok (urlStr, tmplStr) := by
  unfold sealerUnseal sealerSealWith
  have hball : ∀ b ∈ nonce ++ gcmSealB (deriveKey secret) nonce
      (jsonMarshalConfig urlStr tmplStr), b < 256 := by
    intro b hbm
    rcases List.mem_append.mp hbm with h | h
    · exact hb b h
    · exact gcmSealB_lt _ _ _ (jsonMarshalConfig_lt urlStr tmplStr) b h
  rw [show (String.mk (encB64 (nonce ++ gcmSealB (deriveKey secret) nonce
      (jsonMarshalConfig urlStr tmplStr)))).data
      = encB64 (nonce ++ gcmSealB (deriveKey secret) nonce
        (jsonMarshalConfig urlStr tmplStr)) from rfl]
  rw [decB64_encB64 _ hball]
  dsimp only
  have hk : (deriveKey secret).length = 16 ∨ (deriveKey secret).length = 24 ∨
      (deriveKey secret).length = 32 := Or.inr (Or.inr (deriveKey_length secret))
  rw [if_pos hk]
  have hlen2 : (nonce ++ gcmSealB (deriveKey secret) nonce
      (jsonMarshalConfig urlStr tmplStr)).length
      = gcmNonceSize + (gcmSealB (deriveKey secret) nonce
        (jsonMarshalConfig urlStr tmplStr)).length := by
    simp [hlen]
  have hsl : 16 ≤ (gcmSealB (deriveKey secret) nonce
      (jsonMarshalConfig urlStr tmplStr)).length := by
    simp [gcmSealB, gcmTag_length]
  rw [if_neg (show ¬(nonce ++ gcmSealB (deriveKey secret) nonce
    (jsonMarshalConfig urlStr tmplStr)).length < gcmNonceSize by
      rw [hlen2]; omega)]
  have htake : (nonce ++ gcmSealB (deriveKey secret) nonce
      (jsonMarshalConfig urlStr tmplStr)).take gcmNonceSize = nonce :=
    List.take_left' hlen
  have hdrop : (nonce ++ gcmSealB (deriveKey secret) nonce
      (jsonMarshalConfig urlStr tmplStr)).drop gcmNonceSize
      = gcmSealB (deriveKey secret) nonce (jsonMarshalConfig urlStr tmplStr) :=
    List.drop_left' hlen
  rw [htake, hdrop, gcmOpenB_gcmSealB]
  dsimp only
  rw [unmarshalConfig_marshal]

/-! ## JSON documents and the webhook body decode step.

`Json` is the tree of JSON documents.  The inbound request body is modelled
by its parse status: `none` for an empty body, `some (.error ())` for a
non-empty body that is not valid JSON, and `some (.ok j)` for a body that
is the document `j`. -/

/-- A JSON document. -/
inductive Json where
  | null : Json
  | bool (b : Bool) : Json
  | num (n : Int) : Json
  | str (s : String) : Json
  | arr (elems : List Json) : Json
  | obj (fields : List (String × Json)) : Json

/-- The body-decode step of `Server.handleWebhook` (server.go): an empty body
leaves `data` as the nil map; a non-empty body is `json.Unmarshal`ed into
`map[string]any`, which (per encoding/json) succeeds exactly when the
top-level document is an object (yielding its fields) or the literal `null`
(leaving the map nil), and fails otherwise. -/
def decodeBody : Option (Except Unit Json) → Except String (Option (List (String × Json)))
  | none => .ok none
  | some (.error _) => .error "invalid character"
  | some (.ok j) =>
    match j with
    | .null => .ok none
    | .obj fields => .ok (some fields)
    | _ => .error "cannot unmarshal into map"

/-! ## Template engine model (text/template, an external capability).

The repository calls Go's text/template.  The model covers the constructs
the claims exercise: literal text and dotted field access `.a.b` on
JSON-decoded data (with Go's behaviour on nil maps and missing keys);
any other action is modelled as a compile error.  Values are printed the
way `fmt` prints JSON-decoded values. -/

/-- A compiled template node: one literal character or a dotted field path. -/
inductive TmplNode where
  | ch (c : Char) : TmplNode
  | field (path : List String) : TmplNode
deriving DecidableEq

/-- Printing of a JSON-decoded value interpolated into template output
(model of `fmt`'s rendering of `map[string]any` members; a `nil` member
prints as the no-value marker). -/
def renderJson : Json → String
  | .null => "<no value>"
  | .bool true => "true"
  | .bool false => "false"
  | .num n => toString n
  | .str s => s
  | .arr _ => "[array]"
  | .obj _ => "map[object]"

/-- Parse a dotted field path after the leading dot, up to the closing
braces; fuel-driven (the input length bounds the number of segments). -/
def parsePath : Nat → List Char → Option (List String × List Char)
  | 0, _ => none
  | fuel + 1, l =>
    let seg := l.takeWhile (fun c => c.isAlphanum)
    let rest := l.dropWhile (fun c => c.isAlphanum)
    if seg = [] then none
    else
      match rest with
      | [] => none
      | c :: rest2 =>
        if c = '.' then
          match parsePath fuel rest2 with
          | none => none
          | some (p, r) => some (String.mk seg :: p, r)
        else if c = Char.ofNat 125 then
          match rest2 with
          | c2 :: rest3 => if c2 = Char.ofNat 125 then some ([String.mk seg], rest3) else none
          | [] => none
        else none

/-- Parse the inside of an action after the two opening braces: a leading
dot and a dotted path; any other action form is a compile error in the
model. -/
def parseAction (l : List Char) : Option (List String × List Char) :=
  match l with
  | c :: rest => if c = '.' then parsePath (rest.length + 1) rest else none
  | [] => none

/-- Fuel-driven template scanner: literal characters, with two consecutive
opening braces starting a field action. -/
def tmplParseGo : Nat → List Char → Option (List TmplNode)
  | 0, _ => none
  | fuel + 1, [] => some []
  | fuel + 1, c :: rest =>
    if c = Char.ofNat 123 ∧ rest.head? = some (Char.ofNat 123) then
      match parseAction rest.tail with
      | none => none
      | some (path, rest2) =>
        match tmplParseGo fuel rest2 with
        | none => none
        | some ns => some (TmplNode.field path :: ns)
    else
      match tmplParseGo fuel rest with
      | none => none
      | some ns => some (TmplNode.ch c :: ns)

/-- Model of `template.New("").Parse(tstr)`: compiled nodes on success, a
compile error otherwise. -/
def tmplParse (tstr : String) : Except String (List TmplNode) :=
  match tmplParseGo (tstr.data.length + 1) tstr.data with
  | none => .error "template: parse error"
  | some ns => .ok ns

/-- Association lookup in a JSON object (Go map indexing). -/
def lookupField : List (String × Json) → String → Option Json
  | [], _ => none
  | (k, v) :: rest, n => if k = n then some v else lookupField rest n

/-- Evaluation of a dotted field path against the template data
(`map[string]any`, possibly the nil map): indexing a nil map or a missing
key yields the zero value, printed as the no-value marker when it ends the
path and failing with a nil-evaluation error when the path continues; a
non-object intermediate value is a type error (text/template semantics). -/
def execField (data : Option (List (String × Json))) : List String → Except String String
  | [] => .error "template: unexpected dot"
  | [n] =>
    match data with
    | none => .ok "<no value>"
    | some m =>
      match lookupField m n with
      | none => .ok "<no value>"
      | some v => .ok (renderJson v)
  | n :: rest =>
    match (match data with | none => none | some m => lookupField m n) with
    | some (.obj m2) => execField (some m2) rest
    | some _ => .error "template: can't evaluate field"
    | none => .error "template: nil pointer evaluating field"

/-- Model of `tmpl.Execute(buf, data)`: renders nodes left to right,
propagating field-evaluation errors. -/
def tmplExec : List TmplNode → Option (List (String × Json)) → Except String String
  | [], _ => .ok ""
  | .ch c :: rest, data =>
    match tmplExec rest data with
    | .error e => .error e
    | .ok s => .ok (String.mk (c :: s.data))
  | .field p :: rest, data =>
    match execField data p with
    | .error e => .error e
    | .ok v =>
      match tmplExec rest data with
      | .error e => .error e
      | .ok s => .ok (v ++ s)

/-- A template with no opening brace compiles to its literal characters. -/
theorem tmplParseGo_static (cs : List Char) (fuel : Nat) (hf : cs.length < fuel)
    (h : Char.ofNat 123 ∉ cs) :
    tmplParseGo fuel cs = some (cs.map TmplNode.ch) := by
  induction cs generalizing fuel with
  | nil =>
    match fuel, hf with
    | fuel + 1, _ => rfl
  | cons c rest ih =>
    match fuel, hf with
    | fuel + 1, hf =>
      rw [tmplParseGo]
      rw [if_neg (by
        intro hc
        exact h (by simp [hc.1]))]
      rw [ih fuel (by simpa using Nat.lt_of_succ_lt_succ hf)
        (fun hm => h (List.mem_cons_of_mem _ hm))]
      rfl

/-- A static (literal) template renders to its own text against any data,
in particular against the nil map. -/
theorem tmplExec_static (cs : List Char) (data : Option (List (String × Json))) :
    tmplExec (cs.map TmplNode.ch) data = .ok (String.mk cs) := by
  induction cs with
  | nil => rfl
  | cons c rest ih =>
    simp only [List.map_cons, tmplExec, ih]

/-! ## The relay handler (Server.handleWebhook in server.go) and the
template cache (Server.template). -/

/-- The bytes written into the fingerprint hash by `Server.template`:
`h.Write([]byte(url)); h.Write([]byte(tstr))`, i.e. the plain concatenation
of the two strings' bytes with no separator. -/
def templateKeyBytes (url tstr : String) : List Nat :=
  strBytes url ++ strBytes tstr

/-- The cache key of `Server.template` with the digest function explicit:
`fmt.Sprintf("%x", h.Sum(nil))` of the hash of the concatenated bytes. -/
def templateKeyWith (h : List Nat → List Nat) (url tstr : String) : String :=
  String.mk (hexStr (h (templateKeyBytes url tstr)))

/-- The cache key as computed by the code, with the modelled SHA-256. -/
def serverTemplateKey (url tstr : String) : String :=
  templateKeyWith sha256Model url tstr

/-- Lookup in the template cache (`s.templates.Load`). -/
def cacheFind : List (String × List TmplNode) → String → Option (List TmplNode)
  | [], _ => none
  | (k, t) :: rest, key => if k = key then some t else cacheFind rest key

/-- `Server.template` (server.go): fingerprint the pair, return the cached
compiled template on a hit, otherwise compile and store.  The cache is
passed and returned explicitly (it is a `sync.Map` field in Go). -/
def serverTemplate (cache : List (String × List TmplNode)) (url tstr : String) :
    Except String (List TmplNode × List (String × List TmplNode)) :=
  let key := serverTemplateKey url tstr
  match cacheFind cache key with
  | some t => .ok (t, cache)
  | none =>
    match tmplParse tstr with
    | .error e => .error ("parse template: " ++ e)
    | .ok t => .ok (t, (key, t) :: cache)

/-- An outbound HTTP request as built by `http.NewRequestWithContext`. -/
structure OutReq where
  method : String
  url : String
  body : String
deriving DecidableEq

/-- An HTTP response from the outbound transport. -/
structure HTTPResp where
  status : Nat
  body : String
deriving DecidableEq

/-- Observable outcome of one webhook request: the status and body written
to the caller, and the outbound requests issued through the transport. -/
structure HookResult where
  status : Nat
  body : String
  outCalls : List OutReq
deriving DecidableEq

/-- The JSON error envelope written by `Server.error` (server.go):
status plus a body of the shape with an error member carrying the
formatted message. -/
def errBody (msg : String) : String :=
  "\x7b\"error\": \"" ++ msg ++ "\"\x7d"

/-- `Server.handleWebhook` (server.go), translated branch by branch: unseal
the token (400 on failure, caller message prefixed "invalid token:"),
decode the body (400, "invalid JSON:"), fetch or compile the template
through the cache (400, "invalid template:"), execute it (500, "failed to
execute template:"), build the outbound request (500) and send it (500 on
transport failure), finally proxying the target's status and body
verbatim.  The outbound transport is the `doReq` parameter (`s.Client.Do`)
and request construction is `newReq` (`http.NewRequestWithContext`); the
inbound body read (`io.ReadAll`) is assumed to have succeeded, its parse
status being the `bodyJson` parameter. -/
def handleWebhook (secret : String) (cache : List (String × List TmplNode))
    (newReq : String → String → String → Option OutReq)
    (doReq : OutReq → Except String HTTPResp)
    (method token : String) (bodyJson : Option (Except Unit Json)) : HookResult :=
  match sealerUnseal secret token with
  | .error e => ⟨400, errBody ("invalid token: " ++ e.msg), []⟩
  | .ok (remoteURL, rawTmpl) =>
    match decodeBody bodyJson with
    | .error m => ⟨400, errBody ("invalid JSON: " ++ m), []⟩
    | .ok data =>
      match serverTemplate cache remoteURL rawTmpl with
      | .error m => ⟨400, errBody ("invalid template: " ++ m), []⟩
      | .ok (tmpl, _) =>
        match tmplExec tmpl data with
        | .error m => ⟨500, errBody ("failed to execute template: " ++ m), []⟩
        | .ok outBody =>
          match newReq method remoteURL outBody with
          | none => ⟨500, errBody "failed to create request", []⟩
          | some req =>
            match doReq req with
            | .error m => ⟨500, errBody ("failed to send request: " ++ m), [req]⟩
            | .ok r => ⟨r.status, r.body, [req]⟩

/-- Decidable equality for `Except`, so that claim witnesses can be checked
by evaluation. -/
instance {ε α : Type} [DecidableEq ε] [DecidableEq α] : DecidableEq (Except ε α) := fun x y =>
  match x, y with
  | .error a, .error b =>
    match decEq a b with
    | isTrue h => isTrue (h ▸ rfl)
    | isFalse h => isFalse fun he => h (Except.error.inj he)
  | .ok a, .ok b =>
    match decEq a b with
    | isTrue h => isTrue (h ▸ rfl)
    | isFalse h => isFalse fun he => h (Except.ok.inj he)
  | .error _, .ok _ => isFalse fun he => Except.noConfusion he
  | .ok _, .error _ => isFalse fun he => Except.noConfusion he

/-! ## Shared lemmas about the sealer used by several claims. -/

/-- When the randomness source works, `Seal` succeeds and produces the
explicit-nonce token (the cipher-creation branch cannot fire: the derived
key is 32 bytes). -/
theorem sealerSeal_ok (secret urlStr tmplStr : String) (nonce : List Nat) :
    sealerSeal secret (some nonce) urlStr tmplStr
      = .ok (sealerSealWith secret nonce urlStr tmplStr) := by
  unfold sealerSeal
  rw [if_pos (Or.inr (Or.inr (deriveKey_length secret)))]

/-- Whenever authenticated decryption rejects the decoded token body,
`Unseal` fails with the decryption error and returns no data. -/
theorem sealerUnseal_decrypt_fail (secret : String) (data : List Nat)
    (hb : ∀ b ∈ data, b < 256) (hlen : gcmNonceSize ≤ data.length)
    (hopen : gcmOpenB (deriveKey secret) (data.take gcmNonceSize)
      (data.drop gcmNonceSize) = none) :
    sealerUnseal secret (String.mk (encB64 data)) = .error .decryptToken := by
  unfold sealerUnseal
  rw [show (String.mk (encB64 data)).data = encB64 data from rfl]
  rw [decB64_encB64 _ hb]
  dsimp only
  rw [if_pos (Or.inr (Or.inr (deriveKey_length secret)))]
  rw [if_neg (by omega)]
  rw [hopen]

/-- C1.  Round-trip: for every pair of strings (url, template) and every
secret, Unseal applied to the result of Seal(url, template) under the same
secret succeeds and returns exactly (url, template).  (The nonce drawn by
`rand.Read` inside Seal is explicit: any 12-byte nonce works.) -/
theorem claim1_roundtrip (secret urlStr tmplStr tok : String) (nonce : List Nat)
    (hlen : nonce.length = gcmNonceSize) (hb : ∀ b ∈ nonce, b < 256)
    (hseal : sealerSeal secret (some nonce) urlStr tmplStr = .ok tok) :
    sealerUnseal secret tok = .ok (urlStr, tmplStr) := by
  rw [sealerSeal_ok] at hseal
  obtain rfl : sealerSealWith secret nonce urlStr tmplStr = tok :=
    Except.ok.inj hseal
  exact sealerUnseal_sealerSealWith secret urlStr tmplStr nonce hlen hb

/-- Witness for C1 at a concrete secret, configuration and nonce. -/
theorem claim1_roundtrip_witness :
    sealerUnseal "test-secret"
      (sealerSealWith "test-secret" (List.range 12) "https://example.com/hook"
        "static-payload")
      = .ok ("https://example.com/hook", "static-payload") :=
  claim1_roundtrip "test-secret" "https://example.com/hook" "static-payload"
    (sealerSealWith "test-secret" (List.range 12) "https://example.com/hook" "static-payload")
    (List.range 12) (by decide) (by decide) (sealerSeal_ok _ _ _ _)

/-- C2.  Authentication and tamper-evidence: a token minted under one secret
unseals to an error under a different secret, and a valid token whose
decoded bytes have been altered unseals to an error — in both cases exactly
when the AEAD rejects the body, which is the (computational) authenticity
guarantee of GCM, taken here as a hypothesis and discharged concretely in
the witness.  No partial (url, template) data is ever returned: the result
is the decryption error. -/
theorem claim2_auth_tamper :
    (∀ secretA secretB urlStr tmplStr : String, ∀ nonce : List Nat,
      nonce.length = gcmNonceSize → (∀ b ∈ nonce, b < 256) →
      gcmOpenB (deriveKey secretB) nonce
        (gcmSealB (deriveKey secretA) nonce (jsonMarshalConfig urlStr tmplStr)) = none →
      sealerUnseal secretB (sealerSealWith secretA nonce urlStr tmplStr)
        = .error .decryptToken) ∧
    (∀ secret : String, ∀ data : List Nat,
      (∀ b ∈ data, b < 256) → gcmNonceSize ≤ data.length →
      gcmOpenB (deriveKey secret) (data.take gcmNonceSize) (data.drop gcmNonceSize) = none →
      sealerUnseal secret (String.mk (encB64 data)) = .error .decryptToken) := by
  constructor
  · intro secretA secretB urlStr tmplStr nonce hlen hb hopen
    unfold sealerSealWith
    apply sealerUnseal_decrypt_fail
    · intro b hbm
      rcases List.mem_append.mp hbm with h | h
      · exact hb b h
      · exact gcmSealB_lt _ _ _ (jsonMarshalConfig_lt urlStr tmplStr) b h
    · simp [hlen]
    · rw [List.take_left' hlen, List.drop_left' hlen]
      exact hopen
  · intro secret data hb hlen hopen
    exact sealerUnseal_decrypt_fail secret data hb hlen hopen

set_option maxRecDepth 40000 in
/-- Witness for C2: a concrete wrong-secret unseal and a concrete tampered
token (one bit of the first ciphertext byte flipped) both fail with the
decryption error. -/
theorem claim2_auth_tamper_witness :
    sealerUnseal "secret-b" (sealerSealWith "secret-a" (List.range 12) "u" "t")
        = .error .decryptToken ∧
    sealerUnseal "secret-a" (String.mk (encB64 (List.range 12
        ++ (1 ^^^ (gcmSealB (deriveKey "secret-a") (List.range 12)
              (jsonMarshalConfig "u" "t")).headI)
          :: (gcmSealB (deriveKey "secret-a") (List.range 12)
              (jsonMarshalConfig "u" "t")).tail)))
        = .error .decryptToken := by
  constructor
  · exact claim2_auth_tamper.1 "secret-a" "secret-b" "u" "t" (List.range 12)
      (by decide) (by decide) (by decide)
  · exact claim2_auth_tamper.2 "secret-a" _ (by decide) (by decide) (by decide)

/-- C3.  Seal non-determinism: two calls to Seal with identical inputs under
the same secret produce different tokens whenever the two freshly drawn
nonces differ (the nonce is drawn anew from the secure random source on
every call; never-reused nonces are exactly the claim's premise, taken as
the hypothesis `hne`). -/
theorem claim3_seal_nondeterminism (secret urlStr tmplStr tok1 tok2 : String)
    (n1 n2 : List Nat)
    (h1 : n1.length = gcmNonceSize) (h2 : n2.length = gcmNonceSize)
    (hb1 : ∀ b ∈ n1, b < 256) (hb2 : ∀ b ∈ n2, b < 256)
    (hne : n1 ≠ n2)
    (hseal1 : sealerSeal secret (some n1) urlStr tmplStr = .ok tok1)
    (hseal2 : sealerSeal secret (some n2) urlStr tmplStr = .ok tok2) :
    tok1 ≠ tok2 := by
  rw [sealerSeal_ok] at hseal1 hseal2
  obtain rfl : sealerSealWith secret n1 urlStr tmplStr = tok1 := Except.ok.inj hseal1
  obtain rfl : sealerSealWith secret n2 urlStr tmplStr = tok2 := Except.ok.inj hseal2
  intro he
  apply hne
  unfold sealerSealWith at he
  have hdata : n1 ++ gcmSealB (deriveKey secret) n1 (jsonMarshalConfig urlStr tmplStr)
      = n2 ++ gcmSealB (deriveKey secret) n2 (jsonMarshalConfig urlStr tmplStr) := by
    apply encB64_injOn
    · intro b hbm
      rcases List.mem_append.mp hbm with h | h
      · exact hb1 b h
      · exact gcmSealB_lt _ _ _ (jsonMarshalConfig_lt urlStr tmplStr) b h
    · intro b hbm
      rcases List.mem_append.mp hbm with h | h
      · exact hb2 b h
      · exact gcmSealB_lt _ _ _ (jsonMarshalConfig_lt urlStr tmplStr) b h
    · exact congrArg String.data he
  have := congrArg (List.take gcmNonceSize) hdata
  rwa [List.take_left' h1, List.take_left' h2] at this

/-- Witness for C3 at two concrete distinct nonces. -/
theorem claim3_seal_nondeterminism_witness :
    sealerSealWith "test-secret" (List.range 12) "u" "t"
      ≠ sealerSealWith "test-secret" (List.replicate 12 7) "u" "t" :=
  claim3_seal_nondeterminism "test-secret" "u" "t" _ _ (List.range 12)
    (List.replicate 12 7) (by decide) (by decide) (by decide) (by decide) (by decide)
    (sealerSeal_ok _ _ _ _) (sealerSeal_ok _ _ _ _)

/-- C4, counterexample.  The cache key of `Server.template` hashes the bare
concatenation url ‖ template, so the distinct pairs ("ab","c") and
("a","bc") feed identical bytes to the digest and receive the same
fingerprint — and a compiled template cached for the first pair is served
verbatim for the second, although the second pair's template source "bc"
compiles to different nodes.  This refutes "for every two distinct pairs
their fingerprints differ". -/
theorem claim4_fingerprint_counterexample :
    (("ab", "c") : String × String) ≠ ("a", "bc") ∧
    templateKeyBytes "ab" "c" = templateKeyBytes "a" "bc" ∧
    serverTemplateKey "ab" "c" = serverTemplateKey "a" "bc" ∧
    serverTemplate [(serverTemplateKey "ab" "c", [TmplNode.ch 'c'])] "a" "bc"
      = .ok ([TmplNode.ch 'c'], [(serverTemplateKey "ab" "c", [TmplNode.ch 'c'])]) ∧
    tmplParse "bc" = .ok [TmplNode.ch 'b', TmplNode.ch 'c'] := by
  refine ⟨by decide, by decide, by decide, ?_, ?_⟩ <;> rfl

/-- C4, amended.  The fingerprint separates configurations exactly up to the
concatenation of their bytes: whenever the concatenated key bytes of two
pairs differ, an injective (collision-free on these inputs) digest gives
different cache keys; pairs with equal concatenations (the counterexample)
necessarily share a key. -/
theorem claim4_fingerprint_amended (h : List Nat → List Nat) (url1 t1 url2 t2 : String)
    (hinj : Function.Injective h)
    (hb1 : ∀ b ∈ h (templateKeyBytes url1 t1), b < 256)
    (hb2 : ∀ b ∈ h (templateKeyBytes url2 t2), b < 256)
    (hne : templateKeyBytes url1 t1 ≠ templateKeyBytes url2 t2) :
    templateKeyWith h url1 t1 ≠ templateKeyWith h url2 t2 := by
  intro he
  apply hne
  apply hinj
  apply hexStr_injOn _ _ hb1 hb2
  exact congrArg String.data he

/-- Witness for the amended C4 with the identity digest at concrete pairs. -/
theorem claim4_fingerprint_amended_witness :
    templateKeyWith id "x" "y" ≠ templateKeyWith id "x" "z" :=
  claim4_fingerprint_amended id "x" "y" "x" "z" (fun _ _ hab => hab)
    (by decide) (by decide) (by decide)

/-- C5, counterexample.  Two webhook requests whose tokens fail different
unseal checks (base64 decoding for "x"; the length check for "") both get a
400, but the two response bodies differ and each names its failed check, so
the checks are distinguishable to the caller — refuting "a generic message
that never includes which specific check failed". -/
theorem claim5_generic_error_counterexample :
    (handleWebhook "s" [] (fun _ _ _ => none) (fun _ => .error "") "POST" "x" none).status
      = 400 ∧
    (handleWebhook "s" [] (fun _ _ _ => none) (fun _ => .error "") "POST" "" none).status
      = 400 ∧
    (handleWebhook "s" [] (fun _ _ _ => none) (fun _ => .error "") "POST" "x" none).body
      = errBody ("invalid token: " ++ SealError.decodeToken.msg) ∧
    (handleWebhook "s" [] (fun _ _ _ => none) (fun _ => .error "") "POST" "" none).body
      = errBody ("invalid token: " ++ SealError.tooShort.msg) ∧
    (handleWebhook "s" [] (fun _ _ _ => none) (fun _ => .error "") "POST" "x" none).body
      ≠ (handleWebhook "s" [] (fun _ _ _ => none) (fun _ => .error "") "POST" "" none).body := by
  refine ⟨rfl, rfl, rfl, rfl, by decide⟩

/-- C5, amended.  On every unseal failure the handler responds 400 with no
outbound call — that much of the claim holds — but the body embeds the
specific unseal error ("invalid token: " followed by the stage's message),
so the failed check is visible to the caller. -/
theorem claim5_error_detail_amended (secret : String)
    (cache : List (String × List TmplNode))
    (newReq : String → String → String → Option OutReq)
    (doReq : OutReq → Except String HTTPResp)
    (method token : String) (bodyJson : Option (Except Unit Json)) (e : SealError)
    (hu : sealerUnseal secret token = .error e) :
    handleWebhook secret cache newReq doReq method token bodyJson
      = ⟨400, errBody ("invalid token: " ++ e.msg), []⟩ := by
  unfold handleWebhook
  rw [hu]

/-- Witness for the amended C5 at the concrete token "x". -/
theorem claim5_error_detail_amended_witness :
    handleWebhook "s" [] (fun _ _ _ => none) (fun _ => .error "") "POST" "x" none
      = ⟨400, errBody ("invalid token: " ++ SealError.decodeToken.msg), []⟩ :=
  claim5_error_detail_amended "s" [] (fun _ _ _ => none) (fun _ => .error "")
    "POST" "x" none SealError.decodeToken rfl

/-- C6, counterexample.  The code's length check is on the whole decoded
token, not on the remainder after the nonce: the token of twenty 'A's
decodes to 15 zero bytes, whose remainder after the 12-byte nonce (3 bytes)
is smaller than the nonce size, yet Unseal reports the decryption error,
not "token too short" — refuting the claim's "remainder smaller than the
nonce size fails with a too-short error, not a decryption error". -/
theorem claim6_truncation_counterexample :
    decB64 ("AAAAAAAAAAAAAAAAAAAA" : String).data = some (List.replicate 15 0) ∧
    (List.replicate 15 0).length - gcmNonceSize < gcmNonceSize ∧
    sealerUnseal "test-secret" "AAAAAAAAAAAAAAAAAAAA" = .error .decryptToken ∧
    sealerUnseal "test-secret" "AAAAAAAAAAAAAAAAAAAA" ≠ .error .tooShort := by
  refine ⟨by decide, by decide, by decide, by decide⟩

/-- C6, amended.  Unseal fails with "token too short" exactly when the whole
decoded token is shorter than the nonce size (12 bytes); a decoded token of
at least the nonce size whose remainder is shorter than the 16-byte tag
fails with the decryption error instead (never a panic: both cases are
ordinary error returns). -/
theorem claim6_truncation_amended (secret token : String) (data : List Nat)
    (hdec : decB64 token.data = some data) :
    (data.length < gcmNonceSize → sealerUnseal secret token = .error .tooShort) ∧
    (gcmNonceSize ≤ data.length → data.length < gcmNonceSize + gcmTagSize →
      sealerUnseal secret token = .error .decryptToken) := by
  constructor
  · intro hlt
    unfold sealerUnseal
    rw [hdec]
    dsimp only
    rw [if_pos (Or.inr (Or.inr (deriveKey_length secret))), if_pos hlt]
  · intro hge hlt
    unfold sealerUnseal
    rw [hdec]
    dsimp only
    rw [if_pos (Or.inr (Or.inr (deriveKey_length secret))), if_neg (by omega)]
    have hopen : gcmOpenB (deriveKey secret) (data.take gcmNonceSize)
        (data.drop gcmNonceSize) = none := by
      unfold gcmOpenB
      rw [if_pos (by
        rw [List.length_drop]
        simp only [gcmNonceSize, gcmTagSize] at hge hlt ⊢
        omega)]
    rw [hopen]

/-- Witness for the amended C6: a 3-byte decoded token is "too short", a
15-byte one fails decryption. -/
theorem claim6_truncation_amended_witness :
    sealerUnseal "test-secret" "AAAA" = .error .tooShort ∧
    sealerUnseal "test-secret" "AAAAAAAAAAAAAAAAAAAA" = .error .decryptToken := by
  constructor
  · exact (claim6_truncation_amended "test-secret" "AAAA" [0, 0, 0] (by decide)).1 (by decide)
  · exact (claim6_truncation_amended "test-secret" "AAAAAAAAAAAAAAAAAAAA"
      (List.replicate 15 0) (by decide)).2 (by decide) (by decide)

/-- C7.  Relay status codes: unseal failure, malformed JSON body, and
template compile failure answer 400; template execution failure, request
construction failure, and outbound delivery failure answer 500; and on
unseal failure (as well as on every other pre-relay failure) no outbound
request is made. -/
theorem claim7_status_mapping :
    (∀ (secret : String) (cache : List (String × List TmplNode))
      (newReq : String → String → String → Option OutReq)
      (doReq : OutReq → Except String HTTPResp)
      (method token : String) (bodyJson : Option (Except Unit Json)) (e : SealError),
      sealerUnseal secret token = .error e →
      (handleWebhook secret cache newReq doReq method token bodyJson).status = 400 ∧
      (handleWebhook secret cache newReq doReq method token bodyJson).outCalls = []) ∧
    (∀ (secret : String) (cache : List (String × List TmplNode))
      (newReq : String → String → String → Option OutReq)
      (doReq : OutReq → Except String HTTPResp)
      (method token urlStr tmplStr : String),
      sealerUnseal secret token = .ok (urlStr, tmplStr) →
      (handleWebhook secret cache newReq doReq method token (some (.error ()))).status = 400 ∧
      (handleWebhook secret cache newReq doReq method token (some (.error ()))).outCalls
        = []) ∧
    (∀ (secret : String) (cache : List (String × List TmplNode))
      (newReq : String → String → String → Option OutReq)
      (doReq : OutReq → Except String HTTPResp)
      (method token urlStr tmplStr : String) (bodyJson : Option (Except Unit Json))
      (data : Option (List (String × Json))) (m : String),
      sealerUnseal secret token = .ok (urlStr, tmplStr) →
      decodeBody bodyJson = .ok data →
      serverTemplate cache urlStr tmplStr = .error m →
      (handleWebhook secret cache newReq doReq method token bodyJson).status = 400 ∧
      (handleWebhook secret cache newReq doReq method token bodyJson).outCalls = []) ∧
    (∀ (secret : String) (cache : List (String × List TmplNode))
      (newReq : String → String → String → Option OutReq)
      (doReq : OutReq → Except String HTTPResp)
      (method token urlStr tmplStr : String) (bodyJson : Option (Except Unit Json))
      (data : Option (List (String × Json))) (tmpl : List TmplNode)
      (cache2 : List (String × List TmplNode)) (m : String),
      sealerUnseal secret token = .ok (urlStr, tmplStr) →
      decodeBody bodyJson = .ok data →
      serverTemplate cache urlStr tmplStr = .ok (tmpl, cache2) →
      tmplExec tmpl data = .error m →
      (handleWebhook secret cache newReq doReq method token bodyJson).status = 500 ∧
      (handleWebhook secret cache newReq doReq method token bodyJson).outCalls = []) ∧
    (∀ (secret : String) (cache : List (String × List TmplNode))
      (newReq : String → String → String → Option OutReq)
      (doReq : OutReq → Except String HTTPResp)
      (method token urlStr tmplStr : String) (bodyJson : Option (Except Unit Json))
      (data : Option (List (String × Json))) (tmpl : List TmplNode)
      (cache2 : List (String × List TmplNode)) (outBody : String),
      sealerUnseal secret token = .ok (urlStr, tmplStr) →
      decodeBody bodyJson = .ok data →
      serverTemplate cache urlStr tmplStr = .ok (tmpl, cache2) →
      tmplExec tmpl data = .ok outBody →
      newReq method urlStr outBody = none →
      (handleWebhook secret cache newReq doReq method token bodyJson).status = 500 ∧
      (handleWebhook secret cache newReq doReq method token bodyJson).outCalls = []) ∧
    (∀ (secret : String) (cache : List (String × List TmplNode))
      (newReq : String → String → String → Option OutReq)
      (doReq : OutReq → Except String HTTPResp)
      (method token urlStr tmplStr : String) (bodyJson : Option (Except Unit Json))
      (data : Option (List (String × Json))) (tmpl : List TmplNode)
      (cache2 : List (String × List TmplNode)) (outBody : String) (req : OutReq)
      (m : String),
      sealerUnseal secret token = .ok (urlStr, tmplStr) →
      decodeBody bodyJson = .ok data →
      serverTemplate cache urlStr tmplStr = .ok (tmpl, cache2) →
      tmplExec tmpl data = .ok outBody →
      newReq method urlStr outBody = some req →
      doReq req = .error m →
      (handleWebhook secret cache newReq doReq method token bodyJson).status = 500) := by
  refine ⟨?_, ?_, ?_, ?_, ?_, ?_⟩
  · intro secret cache newReq doReq method token bodyJson e hu
    unfold handleWebhook
    rw [hu]
    exact ⟨rfl, rfl⟩
  · intro secret cache newReq doReq method token urlStr tmplStr hu
    unfold handleWebhook
    rw [hu]
    exact ⟨rfl, rfl⟩
  · intro secret cache newReq doReq method token urlStr tmplStr bodyJson data m hu hd hst
    unfold handleWebhook
    rw [hu]
    dsimp only
    rw [hd]
    dsimp only
    rw [hst]
    exact ⟨rfl, rfl⟩
  · intro secret cache newReq doReq method token urlStr tmplStr bodyJson data tmpl cache2 m
      hu hd hst hex
    unfold handleWebhook
    rw [hu]
    dsimp only
    rw [hd]
    dsimp only
    rw [hst]
    dsimp only
    rw [hex]
    exact ⟨rfl, rfl⟩
  · intro secret cache newReq doReq method token urlStr tmplStr bodyJson data tmpl cache2
      outBody hu hd hst hex hnr
    unfold handleWebhook
    rw [hu]
    dsimp only
    rw [hd]
    dsimp only
    rw [hst]
    dsimp only
    rw [hex]
    dsimp only
    rw [hnr]
    exact ⟨rfl, rfl⟩
  · intro secret cache newReq doReq method token urlStr tmplStr bodyJson data tmpl cache2
      outBody req m hu hd hst hex hnr hdo
    unfold handleWebhook
    rw [hu]
    dsimp only
    rw [hd]
    dsimp only
    rw [hst]
    dsimp only
    rw [hex]
    dsimp only
    rw [hnr]
    dsimp only
    rw [hdo]

/-- Witness for C7, one concrete scenario per branch of the mapping:
a bad token; then, under a freshly sealed valid token, a malformed JSON
body, an invalid sealed template, a template whose execution fails on nil
data, a request constructor that fails, and a transport whose delivery
fails. -/
theorem claim7_status_mapping_witness :
    ((handleWebhook "s" [] (fun _ _ _ => none) (fun _ => .error "") "POST" "x" none).status
        = 400 ∧
      (handleWebhook "s" [] (fun _ _ _ => none) (fun _ => .error "") "POST" "x"
        none).outCalls = []) ∧
    ((handleWebhook "s" [] (fun _ _ _ => none) (fun _ => .error "") "POST"
        (sealerSealWith "s" (List.range 12) "http://t" "x")
        (some (.error ()))).status = 400 ∧
      (handleWebhook "s" [] (fun _ _ _ => none) (fun _ => .error "") "POST"
        (sealerSealWith "s" (List.range 12) "http://t" "x")
        (some (.error ()))).outCalls = []) ∧
    ((handleWebhook "s" [] (fun _ _ _ => none) (fun _ => .error "") "POST"
        (sealerSealWith "s" (List.range 12) "http://t" "\x7b\x7b") none).status = 400 ∧
      (handleWebhook "s" [] (fun _ _ _ => none) (fun _ => .error "") "POST"
        (sealerSealWith "s" (List.range 12) "http://t" "\x7b\x7b") none).outCalls = []) ∧
    ((handleWebhook "s" [] (fun _ _ _ => none) (fun _ => .error "") "POST"
        (sealerSealWith "s" (List.range 12) "http://t" "\x7b\x7b.a.b\x7d\x7d")
        none).status = 500 ∧
      (handleWebhook "s" [] (fun _ _ _ => none) (fun _ => .error "") "POST"
        (sealerSealWith "s" (List.range 12) "http://t" "\x7b\x7b.a.b\x7d\x7d")
        none).outCalls = []) ∧
    ((handleWebhook "s" [] (fun _ _ _ => none) (fun _ => .error "") "POST"
        (sealerSealWith "s" (List.range 12) "http://t" "x") none).status = 500 ∧
      (handleWebhook "s" [] (fun _ _ _ => none) (fun _ => .error "") "POST"
        (sealerSealWith "s" (List.range 12) "http://t" "x") none).outCalls = []) ∧
    (handleWebhook "s" []
      (fun m u b => some ⟨m, u, b⟩) (fun _ => .error "connection refused") "POST"
      (sealerSealWith "s" (List.range 12) "http://t" "x") none).status = 500 := by
  have hu1 : sealerUnseal "s" (sealerSealWith "s" (List.range 12) "http://t" "x")
      = .ok ("http://t", "x") :=
    sealerUnseal_sealerSealWith "s" "http://t" "x" (List.range 12) (by decide) (by decide)
  have hu2 : sealerUnseal "s" (sealerSealWith "s" (List.range 12) "http://t" "\x7b\x7b")
      = .ok ("http://t", "\x7b\x7b") :=
    sealerUnseal_sealerSealWith "s" "http://t" "\x7b\x7b" (List.range 12)
      (by decide) (by decide)
  have hu3 : sealerUnseal "s"
      (sealerSealWith "s" (List.range 12) "http://t" "\x7b\x7b.a.b\x7d\x7d")
      = .ok ("http://t", "\x7b\x7b.a.b\x7d\x7d") :=
    sealerUnseal_sealerSealWith "s" "http://t" "\x7b\x7b.a.b\x7d\x7d" (List.range 12)
      (by decide) (by decide)
  refine ⟨?_, ?_, ?_, ?_, ?_, ?_⟩
  · exact claim7_status_mapping.1 "s" [] (fun _ _ _ => none) (fun _ => .error "")
      "POST" "x" none SealError.decodeToken rfl
  · exact claim7_status_mapping.2.1 "s" [] (fun _ _ _ => none) (fun _ => .error "")
      "POST" _ "http://t" "x" hu1
  · exact claim7_status_mapping.2.2.1 "s" [] (fun _ _ _ => none) (fun _ => .error "")
      "POST" _ "http://t" "\x7b\x7b" none none
      "parse template: template: parse error" hu2 rfl rfl
  · exact claim7_status_mapping.2.2.2.1 "s" [] (fun _ _ _ => none) (fun _ => .error "")
      "POST" _ "http://t" "\x7b\x7b.a.b\x7d\x7d" none none
      [TmplNode.field ["a", "b"]]
      [(serverTemplateKey "http://t" "\x7b\x7b.a.b\x7d\x7d", [TmplNode.field ["a", "b"]])]
      "template: nil pointer evaluating field" hu3 rfl rfl rfl
  · exact claim7_status_mapping.2.2.2.2.1 "s" [] (fun _ _ _ => none) (fun _ => .error "")
      "POST" _ "http://t" "x" none none [TmplNode.ch 'x']
      [(serverTemplateKey "http://t" "x", [TmplNode.ch 'x'])] "x" hu1 rfl rfl rfl rfl
  · exact claim7_status_mapping.2.2.2.2.2 "s" []
      (fun m u b => some ⟨m, u, b⟩) (fun _ => .error "connection refused")
      "POST" _ "http://t" "x" none none [TmplNode.ch 'x']
      [(serverTemplateKey "http://t" "x", [TmplNode.ch 'x'])] "x"
      ⟨"POST", "http://t", "x"⟩ "connection refused" hu1 rfl rfl rfl rfl rfl

/-- C8.  Empty-body delivery: with an empty inbound body the handler passes
the nil data value to the template, a static (action-free) template renders
to exactly its own text without error, and the outbound request carries
exactly that text as its body; the target's response is proxied back. -/
theorem claim8_empty_body_static (secret urlStr tstr method : String) (nonce : List Nat)
    (cache : List (String × List TmplNode))
    (newReq : String → String → String → Option OutReq)
    (doReq : OutReq → Except String HTTPResp) (req : OutReq) (r : HTTPResp)
    (hlen : nonce.length = gcmNonceSize) (hb : ∀ b ∈ nonce, b < 256)
    (hstatic : Char.ofNat 123 ∉ tstr.data)
    (hcache : cacheFind cache (serverTemplateKey urlStr tstr) = none)
    (hreq : newReq method urlStr tstr = some req)
    (hdo : doReq req = .ok r) :
    handleWebhook secret cache newReq doReq method
      (sealerSealWith secret nonce urlStr tstr) none
      = ⟨r.status, r.body, [req]⟩ := by
  unfold handleWebhook
  rw [sealerUnseal_sealerSealWith secret urlStr tstr nonce hlen hb]
  dsimp only [decodeBody]
  unfold serverTemplate
  dsimp only
  rw [hcache]
  unfold tmplParse
  rw [tmplParseGo_static tstr.data (tstr.data.length + 1) (Nat.lt_succ_self _) hstatic]
  dsimp only
  rw [tmplExec_static tstr.data none]
  dsimp only
  rw [show String.mk tstr.data = tstr from rfl, hreq]
  dsimp only
  rw [hdo]

/-- Witness for C8: delivering the static template "static-payload" with an
empty body sends exactly "static-payload" outbound and proxies the target's
201 response. -/
theorem claim8_empty_body_static_witness :
    handleWebhook "test-secret" [] (fun m u b => some ⟨m, u, b⟩)
      (fun q => if q.body = "static-payload" then .ok ⟨201, "created"⟩ else .error "wrong")
      "POST" (sealerSealWith "test-secret" (List.range 12) "http://t" "static-payload") none
      = ⟨201, "created", [⟨"POST", "http://t", "static-payload"⟩]⟩ :=
  claim8_empty_body_static "test-secret" "http://t" "static-payload" "POST"
    (List.range 12) [] (fun m u b => some ⟨m, u, b⟩)
    (fun q => if q.body = "static-payload" then .ok ⟨201, "created"⟩ else .error "wrong")
    ⟨"POST", "http://t", "static-payload"⟩ ⟨201, "created"⟩
    (by decide) (by decide) (by decide) rfl rfl rfl

/-- C9.  Seal failure conditions: under a working randomness source Seal
succeeds for all string inputs (serialisation of the two-string record is
total); the only reachable error is the randomness-source failure, because
the SHA-256-derived key always has 32 bytes and so the cipher-creation
branch (and with it GCM creation) cannot fire. -/
theorem claim9_seal_failure_conditions :
    (∀ (secret urlStr tmplStr : String) (nonce : List Nat),
      sealerSeal secret (some nonce) urlStr tmplStr
        = .ok (sealerSealWith secret nonce urlStr tmplStr)) ∧
    (∀ (secret urlStr tmplStr : String) (randBytes : Option (List Nat)) (e : SealFail),
      sealerSeal secret randBytes urlStr tmplStr = .error e → e = .rand) ∧
    (∀ secret : String, (deriveKey secret).length = 32) := by
  refine ⟨fun secret u t n => sealerSeal_ok secret u t n, ?_, fun secret =>
    deriveKey_length secret⟩
  intro secret u t randBytes e h
  unfold sealerSeal at h
  rw [if_pos (Or.inr (Or.inr (deriveKey_length secret)))] at h
  match randBytes, h with
  | none, h => exact (Except.error.inj h).symm
  | some n, h => exact absurd h (fun he => Except.noConfusion he)

/-- Witness for C9: a concrete successful Seal, the randomness-failure case,
and the 32-byte derived key. -/
theorem claim9_seal_failure_conditions_witness :
    sealerSeal "s" (some (List.range 12)) "u" "t"
      = .ok (sealerSealWith "s" (List.range 12) "u" "t") ∧
    SealFail.rand = SealFail.rand ∧
    (deriveKey "s").length = 32 :=
  ⟨claim9_seal_failure_conditions.1 "s" "u" "t" (List.range 12),
    claim9_seal_failure_conditions.2.1 "s" "u" "t" none SealFail.rand (by decide),
    claim9_seal_failure_conditions.2.2 "s"⟩

/-- C10.  Non-object JSON bodies are rejected: with a valid token, a
non-empty body that is valid JSON but neither an object nor the literal
null answers 400 with no outbound call (unmarshalling into the string-keyed
map fails), while null leaves the data nil and an object supplies its
fields. -/
theorem claim10_nonobject_rejected :
    (∀ (secret : String) (cache : List (String × List TmplNode))
      (newReq : String → String → String → Option OutReq)
      (doReq : OutReq → Except String HTTPResp)
      (method token urlStr tmplStr : String) (j : Json),
      sealerUnseal secret token = .ok (urlStr, tmplStr) →
      (∀ fields, j ≠ Json.obj fields) → j ≠ Json.null →
      handleWebhook secret cache newReq doReq method token (some (.ok j))
        = ⟨400, errBody ("invalid JSON: cannot unmarshal into map"), []⟩) ∧
    (decodeBody (some (.ok Json.null)) = .ok none) ∧
    (∀ fields, decodeBody (some (.ok (Json.obj fields))) = .ok (some fields)) := by
  refine ⟨?_, rfl, fun fields => rfl⟩
  intro secret cache newReq doReq method token urlStr tmplStr j hu hobj hnull
  unfold handleWebhook
  rw [hu]
  dsimp only
  have hd : decodeBody (some (.ok j)) = .error "cannot unmarshal into map" := by
    cases j with
    | null => exact absurd rfl hnull
    | obj fields => exact absurd rfl (hobj fields)
    | bool b => rfl
    | num n => rfl
    | str s => rfl
    | arr es => rfl
  rw [hd]
  rfl

/-- Witness for C10: an array body under a valid token answers 400 with no
outbound call. -/
theorem claim10_nonobject_rejected_witness :
    handleWebhook "s" [] (fun _ _ _ => none) (fun _ => .error "") "POST"
      (sealerSealWith "s" (List.range 12) "http://t" "x") (some (.ok (Json.arr [])))
      = ⟨400, errBody ("invalid JSON: cannot unmarshal into map"), []⟩ :=
  claim10_nonobject_rejected.1 "s" [] (fun _ _ _ => none) (fun _ => .error "")
    "POST" _ "http://t" "x" (Json.arr [])
    (sealerUnseal_sealerSealWith "s" "http://t" "x" (List.range 12) (by decide) (by decide))
    (fun _ he => Json.noConfusion he) (fun he => Json.noConfusion he)

end Remap
